import Mathlib

/-!
Verification of the credential-pool gateway: a shallow embedding of the
stream transcoder (`processStreamResponse`), the upstream request executor
(`generateAssistantResponse`, `tryRequestWithToken`), the token manager
(`isExpired`, `saveToFile`, `getToken` in both of its shipped variants,
`handleRequestError`) and the chat-completions stream-mode decision, with
theorems settling the specification claims about them.
-/

namespace Gateway

/-- A buffered tool invocation, as pushed by `processStreamResponse`:
`{ id, type: 'function', function: { name, arguments: JSON.stringify(args) } }`.
The constant `type: 'function'` field is omitted; `arguments` is the already
JSON-encoded argument string. -/
structure ToolCall where
  id : String
  name : String
  arguments : String
deriving DecidableEq, Repr

/-- A semantic event delivered to the callback of `processStreamResponse`:
`{type:'thinking',content}`, `{type:'text',content}` or
`{type:'tool_calls',tool_calls}`. -/
inductive Event where
  | thinking (content : String)
  | text (content : String)
  | tool_calls (calls : List ToolCall)
deriving DecidableEq, Repr

/-- One element of `response.candidates[0].content.parts`.  Optional fields
are `Option`; a `none` models an absent (undefined) field.  `inlineData` is
the pair (mimeType, base64 data). -/
structure Part where
  thought : Bool := false
  text : Option String := none
  thought_signature : Option String := none
  inlineData : Option (String × String) := none
  functionCall : Option ToolCall := none
deriving DecidableEq, Repr

/-- JS truthiness of an optional string field (`undefined` and `''` are
falsy). -/
def strTruthy : Option String → Bool
  | none => false
  | some s => !s.isEmpty

/-- Mutable state of the transcoder loop in `processStreamResponse`:
`thinkingStarted` and the `toolCalls` buffer. -/
structure TState where
  thinkingStarted : Bool
  toolCalls : List ToolCall
deriving DecidableEq, Repr

/-- Initial transcoder state (`thinkingStarted = false`, empty buffer). -/
def TState.init : TState := ⟨false, []⟩

/-- The body of the `for (const part of parts)` loop of
`processStreamResponse`: one part updates the state and emits a list of
callback events. -/
def processPart (st : TState) (p : Part) : TState × List Event :=
  if p.thought then
    -- part.thought === true
    if st.thinkingStarted then
      (st, [Event.thinking (p.text.getD "")])
    else
      ({ st with thinkingStarted := true },
       [Event.thinking "<think>\n", Event.thinking (p.text.getD "")])
  else if p.text.isSome then
    -- part.text !== undefined
    let endEvs : List Event :=
      if st.thinkingStarted then [Event.thinking "\n</think>\n"] else []
    let content0 := p.text.getD ""
    let content1 :=
      if strTruthy p.thought_signature then
        content0 ++ "\n<!-- thought_signature: " ++ p.thought_signature.getD "" ++ " -->"
      else content0
    let content :=
      match p.inlineData with
      | some (mimeType, d) =>
          content1 ++ "\n![Generated Image](data:" ++ mimeType ++ ";base64," ++ d ++ ")"
      | none => content1
    let textEvs : List Event := if content.isEmpty then [] else [Event.text content]
    ({ st with thinkingStarted := false }, endEvs ++ textEvs)
  else
    match p.functionCall with
    | some fc => ({ st with toolCalls := st.toolCalls ++ [fc] }, [])
    | none => (st, [])

/-- Process a whole `parts` list in order, accumulating emitted events. -/
def processParts (st : TState) : List Part → TState × List Event
  | [] => (st, [])
  | p :: ps =>
    let r := processPart st p
    let r2 := processParts r.1 ps
    (r2.1, r.2 ++ r2.2)

/-- The payload of one well-formed `data: ` line:
`response.candidates[0].content.parts` (empty list when the path is absent)
and `response.candidates[0].finishReason`. -/
structure GenData where
  parts : List Part := []
  finishReason : Option String := none
deriving DecidableEq, Repr

/-- One `data: ` line of the upstream SSE stream after JSON parsing:
`none` models a line whose payload failed `JSON.parse` (the `catch` block
ignores it), `some d` a successfully parsed line. -/
abbrev Line : Type := Option GenData

/-- Processing of one `data: ` line in `processStreamResponse`: parse
failure is silently skipped; otherwise the parts are processed in order and
then, if the chunk carries a (truthy) `finishReason` while the `toolCalls`
buffer is non-empty, a closing thinking marker is emitted when a thinking
block is open, the buffered calls are emitted as one `tool_calls` event and
the buffer is cleared. -/
def processLine (st : TState) (ln : Line) : TState × List Event :=
  match ln with
  | none => (st, [])
  | some d =>
    let r := processParts st d.parts
    let st1 := r.1
    if strTruthy d.finishReason && decide (0 < st1.toolCalls.length) then
      let endEvs : List Event :=
        if st1.thinkingStarted then [Event.thinking "\n</think>\n"] else []
      (⟨false, []⟩, r.2 ++ endEvs ++ [Event.tool_calls st1.toolCalls])
    else
      (st1, r.2)

/-- Process a list of lines starting from an explicit state. -/
def processStreamFrom (st : TState) : List Line → TState × List Event
  | [] => (st, [])
  | ln :: lns =>
    let r := processLine st ln
    let r2 := processStreamFrom r.1 lns
    (r2.1, r.2 ++ r2.2)

/-- `processStreamResponse`: the full event sequence delivered to the
callback for an upstream stream, starting from the initial state. -/
def processStream (lns : List Line) : List Event :=
  (processStreamFrom TState.init lns).2

/-! ### Upstream request executor (`src/api/client.js`) -/

/-- The error object thrown by `tryRequestWithToken` on a non-ok response:
`error.status` and `error.isRetryable`. -/
structure UpstreamError where
  status : Nat
  isRetryable : Bool
deriving DecidableEq, Repr

/-- `response.status === 429 || 403 || 500 || 503`, the retryability
classification of `tryRequestWithToken`. -/
def isRetryableStatus (s : Nat) : Bool :=
  s == 429 || s == 403 || s == 500 || s == 503

/-- An upstream HTTP response, reduced to its status code; `ok` follows the
fetch API (status in [200, 300)). -/
structure HttpResponse where
  status : Nat
deriving DecidableEq, Repr

/-- `response.ok` of the fetch API: status in the range 200-299. -/
def HttpResponse.ok (r : HttpResponse) : Bool :=
  200 ≤ r.status && r.status < 300

/-- `tryRequestWithToken`: a non-ok response is turned into a thrown
`UpstreamError` carrying the status and the retryability flag; an ok
response is returned unchanged. -/
def tryRequestWithToken (r : HttpResponse) : Except UpstreamError HttpResponse :=
  if !r.ok then Except.error ⟨r.status, isRetryableStatus r.status⟩
  else Except.ok r

/-- The token-manager state visible to the executor: the cooldown map of the
cooldown-aware manager (`tokenCooldowns`, identity key → cooldownUntil) and
the usage map (`usageStats`, identity key → request count).  `lastUsed` is
not modelled. -/
structure TMState where
  cooldowns : List (String × Nat)
  usageStats : List (String × Nat)
deriving DecidableEq, Repr

/-- `recordUsage`: increments the per-key request counter, creating the
entry at 1 when absent. -/
def bumpUsage : List (String × Nat) → String → List (String × Nat)
  | [], k => [(k, 1)]
  | (k', n) :: rest, k =>
      if k' == k then (k', n + 1) :: rest else (k', n) :: bumpUsage rest k

/-- `recordUsage` on the executor-visible state. -/
def recordUsage (tm : TMState) (key : String) : TMState :=
  { tm with usageStats := bumpUsage tm.usageStats key }

/-- What one retry-loop iteration of `generateAssistantResponse` observes
for one credential index: `getTokenByIndex` returned null (`noToken`), the
upstream call threw (`fail`), or it succeeded with a stream of SSE lines
(`success`). -/
inductive AttemptOutcome where
  | noToken
  | fail (e : UpstreamError)
  | success (lns : List Line)
deriving DecidableEq

/-- Whether an attempt outcome is a successful upstream call. -/
def AttemptOutcome.isSuccess : AttemptOutcome → Bool
  | .success _ => true
  | _ => false

/-- One credential of the eligible pool, as the executor sees it: its
identity key and what trying it yields for the current request. -/
structure Cred where
  refresh_token : String
  outcome : AttemptOutcome

/-- The outcome of `generateAssistantResponse`: a processed stream, the last
stored error rethrown after exhaustion, the generic exhaustion error (no
failure was recorded), or the no-token error thrown before the loop. -/
inductive GenResult where
  | ok (events : List Event)
  | errLast (e : UpstreamError)
  | errGeneric
  | errNoTokens
deriving DecidableEq

/-- Result of running the retry loop: the token-manager state afterwards,
the list of credential indices that were tried (in order), and the outcome
delivered to the caller. -/
structure RunResult where
  tm : TMState
  tried : List Nat
  result : GenResult

/-- The `for (let attempt = 0; ...)` retry loop of
`generateAssistantResponse`, positioned at index `idx` with `lastError`
accumulated so far.  A null token is skipped; a failure records the error
(`lastError = error` for retryable and non-retryable alike) and continues; a
success processes the stream and returns.  `recordUsage` happens inside
`getTokenByIndex` whenever a token is returned.  The loop never touches the
cooldown map.  (The `triedIndices` set in the source is redundant — the
index equals the loop counter — so each index is visited once by
construction.) -/
def runAttempts : TMState → List Cred → Nat → Option UpstreamError → RunResult
  | tm, [], _, lastError =>
      ⟨tm, [],
       match lastError with
       | some e => GenResult.errLast e
       | none => GenResult.errGeneric⟩
  | tm, c :: rest, idx, lastError =>
      match c.outcome with
      | .noToken =>
          let r := runAttempts tm rest (idx + 1) lastError
          ⟨r.tm, idx :: r.tried, r.result⟩
      | .fail e =>
          let r := runAttempts (recordUsage tm c.refresh_token) rest (idx + 1) (some e)
          ⟨r.tm, idx :: r.tried, r.result⟩
      | .success lns =>
          ⟨recordUsage tm c.refresh_token, [idx], GenResult.ok (processStream lns)⟩

/-- `generateAssistantResponse`: throws immediately when the pool is empty,
otherwise runs the retry loop over indices `0..N-1`. -/
def generateAssistantResponse (tm : TMState) (creds : List Cred) : RunResult :=
  if creds.length = 0 then ⟨tm, [], GenResult.errNoTokens⟩
  else runAttempts tm creds 0 none

/-- How the loop's `lastError` variable evolves over a list of attempts,
starting from a given value: a failure overwrites it, anything else leaves
it untouched. -/
def lastErrorFrom : Option UpstreamError → List Cred → Option UpstreamError
  | last, [] => last
  | last, c :: rest =>
    lastErrorFrom
      (match c.outcome with
       | .fail e => some e
       | _ => last) rest

/-- The last error remembered by the loop when no attempt succeeds: the
error of the last failing credential (null-token skips leave it
untouched). -/
def lastErrorOf (creds : List Cred) : Option UpstreamError :=
  lastErrorFrom none creds

/-- The `fullContent` accumulation of the non-streaming chat-completions
branch: every non-`tool_calls` event's content is appended. -/
def fullContent (evs : List Event) : String :=
  evs.foldl (fun acc e =>
    match e with
    | .thinking c => acc ++ c
    | .text c => acc ++ c
    | .tool_calls _ => acc) ""

/-! ### Token manager (`src/auth/token_manager.js`)

The repository ships two variants of the `TokenManager` class: a
cooldown-aware one (with `tokenCooldowns`, `setCooldown`,
`handleRequestError`, and a `getToken` that cools failing tokens down) and a
simplified one (no cooldown state, with `getTokenCount`/`getTokenByIndex`
used by the executor, and a `getToken` that falls back to the first token).
Both variants' `isExpired` and `saveToFile` are identical. -/

/-- JS truthiness of an optional numeric field (`undefined` and `0` are
falsy). -/
def numTruthy : Option Int → Bool
  | none => false
  | some x => x != 0

/-- A credential record as far as `isExpired` reads it. -/
structure TokenRecord where
  timestamp : Option Int := none
  expires_in : Option Int := none
deriving DecidableEq, Repr

/-- `isExpired`: records with a falsy `timestamp` or `expires_in` are
expired; otherwise compare `Date.now()` against
`timestamp + expires_in*1000 - 300000` (a five-minute safety margin),
inclusively. -/
def isExpired (now : Int) (t : TokenRecord) : Bool :=
  if !numTruthy t.timestamp || !numTruthy t.expires_in then true
  else decide (now ≥ t.timestamp.getD 0 + t.expires_in.getD 0 * 1000 - 300000)

/-- A stored account row, reduced to its identity key (`refresh_token`) and
an opaque rendering of all its other fields. -/
structure AccountRow where
  refresh_token : String
  rest : String := ""
deriving DecidableEq, Repr

/-- The row-update pass of `saveToFile`: for each in-memory token, the first
stored row with the same `refresh_token` (if any) is overwritten with the
in-memory record. -/
def updateRows : List AccountRow → List AccountRow → List AccountRow
  | acc, [] => acc
  | acc, m :: ms =>
    updateRows
      (match acc.findIdx? (fun t => t.refresh_token == m.refresh_token) with
       | some i => acc.set i m
       | none => acc) ms

/-- `saveToFile`: skipped entirely (`none`, nothing written) when the
credentials came from environment variables; otherwise writes back the
cached row set with matching rows replaced by the in-memory records. -/
def saveToFile (useEnvAccounts : Bool) (cachedData : List AccountRow)
    (mem : List AccountRow) : Option (List AccountRow) :=
  if useEnvAccounts then none
  else some (updateRows cachedData mem)

/-- `this.cooldownDuration = 5 * 60 * 1000`. -/
def cooldownDuration : Nat := 5 * 60 * 1000

/-- The cooldown applied by `handleRequestError` for a request failure with
the given status: 429 → `cooldownDuration * 2` (600 s), 403 →
`cooldownDuration` (300 s), anything else → no cooldown at all (the
function returns null without touching cooldown state). -/
def handleRequestErrorCooldown (statusCode : Nat) : Option Nat :=
  if statusCode == 403 || statusCode == 429 then
    some (if statusCode == 429 then cooldownDuration * 2 else cooldownDuration)
  else none

/-- The cooldown duration the cooldown-aware `getToken` applies when a
token's refresh fails: 403 → 300 s, 429 → 600 s, anything else → 60 s. -/
def refreshErrorCooldown (statusCode : Option Nat) : Nat :=
  match statusCode with
  | some 403 => cooldownDuration
  | some 429 => cooldownDuration * 2
  | _ => 60 * 1000

/-- A credential record as the selection loops see it: identity key,
enabled flag, whether it is currently expired, and whether refreshing it
would succeed. -/
structure PoolToken where
  refresh_token : String
  enabled : Bool := true
  expired : Bool := false
  refreshOk : Bool := true
deriving DecidableEq, Repr

/-- `loadTokens` of the cooldown-aware manager: the eligible list filters
out disabled records and records whose key is in the cooldown map (within
one `getToken` call `Date.now()` is treated as fixed, so a freshly cooled
key stays excluded for the whole call). -/
def loadEligible (all : List PoolToken) (cooled : List String) : List PoolToken :=
  all.filter (fun t => t.enabled && !(cooled.contains t.refresh_token))

/-- The `while (attempts < this.tokens.length)` loop of the cooldown-aware
`getToken`, with fuel for termination: the token at the cursor is returned
if it is fresh or refreshes successfully; otherwise it is cooled down, the
eligible list is reloaded (excluding it), the cursor advances and wraps,
and the loop continues.  Returns null when the eligible list empties or the
attempt budget is exhausted. -/
def getTokenV1Go (all : List PoolToken) :
    Nat → List String → Nat → Nat → Option PoolToken
  | 0, _, _, _ => none
  | fuel + 1, cooled, cur, attempts =>
    let tokens := loadEligible all cooled
    if attempts < tokens.length then
      match tokens[cur]? with
      | none => none
      | some token =>
        if !token.expired || token.refreshOk then some token
        else
          let cooled' := token.refresh_token :: cooled
          let cur' := (cur + 1) % tokens.length
          let tokens' := loadEligible all cooled'
          if tokens'.length = 0 then none
          else getTokenV1Go all fuel cooled'
            (if tokens'.length ≤ cur' then 0 else cur') (attempts + 1)
    else none

/-- The cooldown-aware `getToken` (round-robin with cooldown on refresh
failure), starting from the full record list, the keys already cooling
down, and the rotation cursor. -/
def getTokenV1 (all : List PoolToken) (cooled : List String) (cur : Nat) :
    Option PoolToken :=
  let tokens := loadEligible all cooled
  if tokens.length = 0 then none
  else getTokenV1Go all (all.length + 1) cooled
    (if tokens.length ≤ cur then 0 else cur) 0

/-- The `for (let i = 0; i < this.tokens.length; i++)` loop of the
simplified `getToken`: return the token at the cursor if fresh or
successfully refreshed, else advance (mod length) and continue. -/
def getTokenV2Loop (tokens : List PoolToken) : Nat → Nat → Option PoolToken
  | _, 0 => none
  | cur, i + 1 =>
    match tokens[cur]? with
    | none => none
    | some token =>
      if !token.expired || token.refreshOk then some token
      else getTokenV2Loop tokens ((cur + 1) % tokens.length) i

/-- The simplified `getToken` (no cooldowns): after the rotation loop fails
for every token, it returns `this.tokens[0]` anyway ("let the API call
handle the error"), and null only when the pool is empty. -/
def getTokenV2 (all : List PoolToken) (cur : Nat) : Option PoolToken :=
  let tokens := all.filter (fun t => t.enabled)
  if tokens.length = 0 then none
  else
    let start := if tokens.length ≤ cur then 0 else cur
    match getTokenV2Loop tokens start tokens.length with
    | some t => some t
    | none => tokens.head?

/-! ### Chat-completions endpoint (`POST /v1/chat/completions`) -/

/-- A chat message as far as the stream-mode heuristic reads it: its
`content` string. -/
structure ChatMessage where
  content : String
deriving DecidableEq, Repr

/-- The stream-mode decision of the chat-completions handler:
`stream = true` by default; a request with exactly one message whose
`content` is truthy (non-empty) and shorter than 20 characters, with
`stream` left unspecified in the body, is forced to non-streaming. -/
def chatCompletionsStream (messages : List ChatMessage)
    (streamField : Option Bool) : Bool :=
  let stream := streamField.getD true
  let isSingleShortMessage :=
    messages.length == 1 &&
      (match messages.head? with
       | some m => !m.content.isEmpty && decide (m.content.length < 20)
       | none => false)
  if isSingleShortMessage && streamField.isNone then false else stream

/-! ## Theorems -/

/-- Claim C2: feeding the transcoder one upstream chunk whose parts are
`[thought:"a", thought:"b", text:"c"]` delivers to the callback exactly the
events thinking `"<think>\n"`, thinking `"a"`, thinking `"b"`, thinking
`"\n</think>\n"`, text `"c"`, in that order and nothing else. -/
theorem processStream_thinking_roundtrip :
    processStream [some { parts := [{ thought := true, text := some "a" },
                                    { thought := true, text := some "b" },
                                    { text := some "c" }] }] =
      [Event.thinking "<think>\n", Event.thinking "a", Event.thinking "b",
       Event.thinking "\n</think>\n", Event.text "c"] := by
  rfl

/-- Claim C5: a non-ok upstream response makes `tryRequestWithToken` throw
an error carrying the response's status whose `isRetryable` flag is true
exactly when the status is 429, 403, 500 or 503. -/
theorem tryRequestWithToken_isRetryable_iff (r : HttpResponse) (e : UpstreamError)
    (hok : r.ok = false) (herr : tryRequestWithToken r = Except.error e) :
    e.status = r.status ∧
    (e.isRetryable = true ↔
      (e.status = 429 ∨ e.status = 403 ∨ e.status = 500 ∨ e.status = 503)) := by
  have he : e = ⟨r.status, isRetryableStatus r.status⟩ := by
    rw [tryRequestWithToken, hok] at herr
    simpa using herr.symm
  subst he
  refine ⟨rfl, ?_⟩
  simp [isRetryableStatus]
  tauto

/-- Witness for C5: status 404 is non-ok and classified non-retryable. -/
theorem tryRequestWithToken_isRetryable_iff_witness :
    UpstreamError.status ⟨404, false⟩ = HttpResponse.status ⟨404⟩ ∧
    (UpstreamError.isRetryable ⟨404, false⟩ = true ↔
      (UpstreamError.status ⟨404, false⟩ = 429 ∨ UpstreamError.status ⟨404, false⟩ = 403 ∨
       UpstreamError.status ⟨404, false⟩ = 500 ∨ UpstreamError.status ⟨404, false⟩ = 503)) :=
  tryRequestWithToken_isRetryable_iff ⟨404⟩ ⟨404, false⟩ rfl rfl

/-- Claim C7: a malformed (unparseable) `data: ` line is skipped silently —
it produces no events and leaves the transcoder state unchanged, and a
stream containing such a line produces exactly the events of the stream
with the line removed. -/
theorem malformed_line_skipped :
    (∀ st : TState, processLine st none = (st, [])) ∧
    (∀ pre post : List Line,
      processStream (pre ++ none :: post) = processStream (pre ++ post)) := by
  have key : ∀ (pre : List Line) (st : TState) (post : List Line),
      processStreamFrom st (pre ++ none :: post) = processStreamFrom st (pre ++ post) := by
    intro pre
    induction pre with
    | nil =>
      intro st post
      simp [processStreamFrom, processLine]
    | cons ln lns ih =>
      intro st post
      simp [processStreamFrom, ih]
  exact ⟨fun _ => rfl, fun pre post => congrArg Prod.snd (key pre TState.init post)⟩

/-- Counterexample for C8: a record with `timestamp = 0` and
`expires_in = 1000`, inspected at `now = 0`: both fields are present, the
claimed formula `now >= timestamp + expires_in*1000 - 300000` is false, yet
`isExpired` returns true (a zero `timestamp` is falsy in JS and is treated
as missing). -/
theorem isExpired_zero_timestamp_cex :
    isExpired 0 { timestamp := some 0, expires_in := some 1000 } = true ∧
    ¬((0 : Int) ≥ 0 + 1000 * 1000 - 300000) := by
  exact ⟨rfl, by decide⟩

/-- Claim C8 (amended: both fields present *and non-zero*): `isExpired`
returns true exactly when `now >= timestamp + expires_in*1000 - 300000`,
and the boundary instant itself is classified expired. -/
theorem isExpired_iff_skewed_expiry (now ts ei : Int) (hts : ts ≠ 0) (hei : ei ≠ 0) :
    (isExpired now { timestamp := some ts, expires_in := some ei } = true ↔
      now ≥ ts + ei * 1000 - 300000) ∧
    isExpired (ts + ei * 1000 - 300000) { timestamp := some ts, expires_in := some ei } = true := by
  constructor
  · simp [isExpired, numTruthy, hts, hei]
  · simp [isExpired, numTruthy, hts, hei]

/-- Witness for C8: a concrete record one real hour old with a one-hour
ttl is expired. -/
theorem isExpired_iff_skewed_expiry_witness :
    isExpired 1700000000000 { timestamp := some 1600000000000, expires_in := some 3600 } = true := by
  have h := (isExpired_iff_skewed_expiry 1700000000000 1600000000000 3600
    (by decide) (by decide)).1
  exact h.mpr (by decide)

/-- Counterexample for C10: a single message whose content is the empty
string (length 0 < 20) with `stream` unspecified is answered with a
*streaming* response — the empty content is falsy, so the short-message
heuristic does not fire and the default `stream = true` stands. -/
theorem stream_empty_content_cex :
    ("" : String).length < 20 ∧
    chatCompletionsStream [{ content := "" }] none = true := by
  exact ⟨by decide, rfl⟩

/-- Claim C10 (amended: the single message's content must be *non-empty*
and shorter than 20 characters): such a request with `stream` unspecified
is forced to non-streaming, while a single over-long message or a
multi-message request with `stream` unspecified keeps the streaming
default. -/
theorem short_message_forces_nonstream :
    (∀ m : ChatMessage, m.content ≠ "" → m.content.length < 20 →
      chatCompletionsStream [m] none = false) ∧
    (∀ m : ChatMessage, ¬ m.content.length < 20 →
      chatCompletionsStream [m] none = true) ∧
    (∀ (m₁ m₂ : ChatMessage) (rest : List ChatMessage),
      chatCompletionsStream (m₁ :: m₂ :: rest) none = true) := by
  refine ⟨?_, ?_, ?_⟩
  · intro m hne hlt
    have hne' : m.content.isEmpty = false := by
      cases h : m.content.isEmpty
      · rfl
      · exact absurd ((String.isEmpty_iff _).mp h) hne
    simp [chatCompletionsStream, hne', hlt]
  · intro m hge
    simp [chatCompletionsStream, hge]
  · intro m₁ m₂ rest
    simp [chatCompletionsStream]

/-- Witness for C10: the message `"hi"` with `stream` unspecified is
answered non-streaming. -/
theorem short_message_forces_nonstream_witness :
    chatCompletionsStream [{ content := "hi" }] none = false :=
  short_message_forces_nonstream.1 { content := "hi" } (by decide) (by decide)

/-- The concrete three-credential pool of the cooldown scenario:
credential 0 fails with HTTP 429, credential 1 with HTTP 500, credential 2
succeeds with the two-chunk text stream `"hel"`, `"lo"`. -/
def helloScenario : List Cred :=
  [⟨"rt0", .fail ⟨429, true⟩⟩,
   ⟨"rt1", .fail ⟨500, true⟩⟩,
   ⟨"rt2", .success [some { parts := [{ text := some "hel" }] },
                     some { parts := [{ text := some "lo" }],
                            finishReason := some "STOP" }]⟩]

/-- Counterexample for C3: after the scenario request the cooldown map is
untouched (the retry loop of `generateAssistantResponse` never applies
cooldowns), so credentials 0 and 1 are *not* in cooldown; moreover even
`handleRequestError` — which this path never calls — applies no cooldown
at all for HTTP 500, so no 60-second cooldown for credential 1 exists
anywhere in the code. -/
theorem scenario_429_500_no_cooldown_cex :
    (generateAssistantResponse ⟨[], []⟩ helloScenario).tm.cooldowns = [] ∧
    handleRequestErrorCooldown 500 = none := by
  exact ⟨rfl, rfl⟩

/-- Claim C3 (amended): the caller receives one successful response whose
concatenated text is `"hello"` after credentials 0, 1, 2 are tried in
order, but no cooldown is applied to any credential (the retry loop does
no cooldown bookkeeping; the unused `handleRequestError` would have given
429 a 600-second cooldown and gives 500 none). -/
theorem scenario_429_500_success_hello :
    (generateAssistantResponse ⟨[], []⟩ helloScenario).result =
      GenResult.ok [Event.text "hel", Event.text "lo"] ∧
    fullContent [Event.text "hel", Event.text "lo"] = "hello" ∧
    (generateAssistantResponse ⟨[], []⟩ helloScenario).tried = [0, 1, 2] ∧
    (generateAssistantResponse ⟨[], []⟩ helloScenario).tm.cooldowns = [] ∧
    handleRequestErrorCooldown 429 = some 600000 := by
  refine ⟨rfl, rfl, rfl, rfl, rfl⟩

/-! ### Retry loop of the executor (C1) -/

/-- The indices tried by the retry loop are distinct and all lie in the
index window of the remaining pool. -/
theorem runAttempts_tried_bounds (creds : List Cred) :
    ∀ (tm : TMState) (idx : Nat) (last : Option UpstreamError),
      (runAttempts tm creds idx last).tried.Nodup ∧
      ∀ i ∈ (runAttempts tm creds idx last).tried, idx ≤ i ∧ i < idx + creds.length := by
  induction creds with
  | nil =>
    intro tm idx last
    exact ⟨List.nodup_nil, by intro i hi; simp [runAttempts] at hi⟩
  | cons c rest ih =>
    intro tm idx last
    cases hc : c.outcome with
    | noToken =>
      have h := ih tm (idx + 1) last
      simp only [runAttempts, hc]
      refine ⟨List.nodup_cons.mpr ⟨fun hmem => ?_, h.1⟩, ?_⟩
      · have := (h.2 idx hmem).1; omega
      · intro i hi
        rcases List.mem_cons.mp hi with rfl | hi'
        · simp only [List.length_cons]; omega
        · have := h.2 i hi'; simp only [List.length_cons]; omega
    | fail e =>
      have h := ih (recordUsage tm c.refresh_token) (idx + 1) (some e)
      simp only [runAttempts, hc]
      refine ⟨List.nodup_cons.mpr ⟨fun hmem => ?_, h.1⟩, ?_⟩
      · have := (h.2 idx hmem).1; omega
      · intro i hi
        rcases List.mem_cons.mp hi with rfl | hi'
        · simp only [List.length_cons]; omega
        · have := h.2 i hi'; simp only [List.length_cons]; omega
    | success lns =>
      simp only [runAttempts, hc]
      refine ⟨List.nodup_singleton idx, ?_⟩
      intro i hi
      rcases List.mem_singleton.mp hi with rfl
      simp only [List.length_cons]; omega

/-- The first successful attempt is returned, whatever follows it. -/
theorem runAttempts_first_success (pre : List Cred) :
    ∀ (tm : TMState) (idx : Nat) (last : Option UpstreamError)
      (c : Cred) (rest : List Cred) (lns : List Line),
      c.outcome = AttemptOutcome.success lns →
      (∀ a ∈ pre, a.outcome.isSuccess = false) →
      (runAttempts tm (pre ++ c :: rest) idx last).result =
        GenResult.ok (processStream lns) := by
  induction pre with
  | nil =>
    intro tm idx last c rest lns hc _
    simp [runAttempts, hc]
  | cons a as ih =>
    intro tm idx last c rest lns hc hpre
    have ha := hpre a (List.mem_cons_self _ _)
    cases hao : a.outcome with
    | noToken =>
      simp only [List.cons_append, runAttempts, hao]
      exact ih tm (idx + 1) last c rest lns hc
        (fun x hx => hpre x (List.mem_cons_of_mem _ hx))
    | fail e =>
      simp only [List.cons_append, runAttempts, hao]
      exact ih (recordUsage tm a.refresh_token) (idx + 1) (some e) c rest lns hc
        (fun x hx => hpre x (List.mem_cons_of_mem _ hx))
    | success l =>
      rw [hao] at ha
      simp [AttemptOutcome.isSuccess] at ha

/-- When no attempt succeeds, the loop visits every remaining index in
order and ends with the last failure's error (or the accumulated one). -/
theorem runAttempts_all_fail (creds : List Cred) :
    ∀ (tm : TMState) (idx : Nat) (last : Option UpstreamError),
      (∀ a ∈ creds, a.outcome.isSuccess = false) →
      (runAttempts tm creds idx last).tried = List.range' idx creds.length ∧
      (runAttempts tm creds idx last).result =
        (match lastErrorFrom last creds with
         | some e => GenResult.errLast e
         | none => GenResult.errGeneric) := by
  induction creds with
  | nil => intro tm idx last _; exact ⟨rfl, rfl⟩
  | cons c rest ih =>
    intro tm idx last hall
    have hc0 := hall c (List.mem_cons_self _ _)
    cases hc : c.outcome with
    | noToken =>
      have h := ih tm (idx + 1) last (fun x hx => hall x (List.mem_cons_of_mem _ hx))
      simp only [runAttempts, hc, List.length_cons, lastErrorFrom]
      rw [List.range'_succ]
      exact ⟨by rw [h.1], h.2⟩
    | fail e =>
      have h := ih (recordUsage tm c.refresh_token) (idx + 1) (some e)
        (fun x hx => hall x (List.mem_cons_of_mem _ hx))
      simp only [runAttempts, hc, List.length_cons, lastErrorFrom]
      rw [List.range'_succ]
      exact ⟨by rw [h.1], h.2⟩
    | success l =>
      rw [hc] at hc0
      simp [AttemptOutcome.isSuccess] at hc0

/-- Claim C1: the retry loop of `generateAssistantResponse` tries each
credential index at most once (the tried indices are distinct and within
`0..N-1`, so iteration is bounded); the first successful attempt's stream
is processed and returned, whatever the preceding failures were; and when
no attempt succeeds, all `N` indices are tried in order and the error of
the last failing credential is thrown. -/
theorem generateAssistantResponse_try_all_then_fail :
    (∀ (tm : TMState) (creds : List Cred),
      (generateAssistantResponse tm creds).tried.Nodup ∧
      ∀ i ∈ (generateAssistantResponse tm creds).tried, i < creds.length) ∧
    (∀ (tm : TMState) (pre : List Cred) (rt : String) (lns : List Line) (rest : List Cred),
      (∀ a ∈ pre, a.outcome.isSuccess = false) →
      (generateAssistantResponse tm (pre ++ ⟨rt, AttemptOutcome.success lns⟩ :: rest)).result =
        GenResult.ok (processStream lns)) ∧
    (∀ (tm : TMState) (creds : List Cred), creds ≠ [] →
      (∀ a ∈ creds, a.outcome.isSuccess = false) →
      (generateAssistantResponse tm creds).tried = List.range creds.length ∧
      (generateAssistantResponse tm creds).result =
        (match lastErrorOf creds with
         | some e => GenResult.errLast e
         | none => GenResult.errGeneric)) := by
  refine ⟨?_, ?_, ?_⟩
  · intro tm creds
    unfold generateAssistantResponse
    split
    · exact ⟨List.nodup_nil, by intro i hi; simp at hi⟩
    · have h := runAttempts_tried_bounds creds tm 0 none
      exact ⟨h.1, fun i hi => by have := (h.2 i hi).2; omega⟩
  · intro tm pre rt lns rest hpre
    unfold generateAssistantResponse
    split
    · next hlen => simp at hlen
    · exact runAttempts_first_success pre tm 0 none ⟨rt, AttemptOutcome.success lns⟩
        rest lns rfl hpre
  · intro tm creds hne hall
    unfold generateAssistantResponse
    split
    · next hlen => exact absurd (List.length_eq_zero.mp hlen) hne
    · have h := runAttempts_all_fail creds tm 0 none hall
      exact ⟨by rw [h.1, List.range_eq_range'], h.2⟩

/-- Witness for C1: three non-retryable failures (401, 402, 405) make the
loop try indices 0, 1, 2 and throw the last error (status 405); a failure
followed by a success returns the success. -/
theorem generateAssistantResponse_try_all_then_fail_witness :
    ((generateAssistantResponse ⟨[], []⟩
        [⟨"a", .fail ⟨401, false⟩⟩, ⟨"b", .fail ⟨402, false⟩⟩,
         ⟨"c", .fail ⟨405, false⟩⟩]).tried = List.range 3 ∧
     (generateAssistantResponse ⟨[], []⟩
        [⟨"a", .fail ⟨401, false⟩⟩, ⟨"b", .fail ⟨402, false⟩⟩,
         ⟨"c", .fail ⟨405, false⟩⟩]).result = GenResult.errLast ⟨405, false⟩) ∧
    (generateAssistantResponse ⟨[], []⟩
        [⟨"a", .fail ⟨401, false⟩⟩, ⟨"ok", AttemptOutcome.success []⟩]).result =
      GenResult.ok (processStream []) := by
  constructor
  · have h := generateAssistantResponse_try_all_then_fail.2.2 ⟨[], []⟩
      [⟨"a", .fail ⟨401, false⟩⟩, ⟨"b", .fail ⟨402, false⟩⟩, ⟨"c", .fail ⟨405, false⟩⟩]
      (by exact List.cons_ne_nil _ _) (by decide)
    exact ⟨h.1, by rw [h.2]; rfl⟩
  · exact generateAssistantResponse_try_all_then_fail.2.1 ⟨[], []⟩
      [⟨"a", .fail ⟨401, false⟩⟩] "ok" [] [] (by decide)

/-! ### Credential selection exhaustion (C4) -/

/-- Every eligible token comes from the full record list. -/
theorem loadEligible_subset (all : List PoolToken) (cooled : List String) :
    ∀ t ∈ loadEligible all cooled, t ∈ all :=
  fun _ ht => (List.mem_filter.mp ht).1

/-- When every record is expired and unrefreshable, the cooldown-aware
selection loop returns null, whatever the fuel, cooldown set, cursor and
attempt counter are. -/
theorem getTokenV1Go_none_of_all_fail (all : List PoolToken)
    (hall : ∀ t ∈ all, t.expired = true ∧ t.refreshOk = false) :
    ∀ (fuel : Nat) (cooled : List String) (cur attempts : Nat),
      getTokenV1Go all fuel cooled cur attempts = none := by
  intro fuel
  induction fuel with
  | zero => intro cooled cur attempts; rfl
  | succ fuel ih =>
    intro cooled cur attempts
    unfold getTokenV1Go
    dsimp only
    split
    · cases hget : (loadEligible all cooled)[cur]? with
      | none => simp [hget]
      | some token =>
        obtain ⟨he, hr⟩ :=
          hall token (loadEligible_subset all cooled token (List.getElem?_mem hget))
        simp only [hget, he, hr, Bool.not_true, Bool.or_self]
        rw [if_neg (by simp)]
        split
        · rfl
        · exact ih _ _ _
    · rfl

/-- The cooldown-aware selection loop only ever returns a token that was
fresh or whose refresh succeeded. -/
theorem getTokenV1Go_some_not_failed (all : List PoolToken) :
    ∀ (fuel : Nat) (cooled : List String) (cur attempts : Nat) (t : PoolToken),
      getTokenV1Go all fuel cooled cur attempts = some t →
      t.expired = false ∨ t.refreshOk = true := by
  intro fuel
  induction fuel with
  | zero => intro cooled cur attempts t h; simp [getTokenV1Go] at h
  | succ fuel ih =>
    intro cooled cur attempts t h
    unfold getTokenV1Go at h
    dsimp only at h
    split at h
    · split at h
      · simp at h
      · next token hget =>
        split at h
        · next hcond =>
          obtain rfl := Option.some.inj h
          rcases Bool.or_eq_true_iff.mp hcond with hl | hr
          · exact Or.inl (by simpa using hl)
          · exact Or.inr hr
        · split at h
          · simp at h
          · exact ih _ _ _ _ h
    · simp at h

/-- When every token is expired and unrefreshable, the simplified rotation
loop finds nothing. -/
theorem getTokenV2Loop_none_of_all_fail (tokens : List PoolToken)
    (hall : ∀ t ∈ tokens, t.expired = true ∧ t.refreshOk = false) :
    ∀ (i cur : Nat), getTokenV2Loop tokens cur i = none := by
  intro i
  induction i with
  | zero => intro cur; rfl
  | succ i ih =>
    intro cur
    unfold getTokenV2Loop
    cases hget : tokens[cur]? with
    | none => simp [hget]
    | some token =>
      obtain ⟨he, hr⟩ := hall token (List.getElem?_mem hget)
      simp [hget, he, hr, ih]

/-- Counterexample for C4: a two-token pool in which every refresh fails —
the simplified `getToken` (the variant the executor's token manager ships)
does not return null: it falls back to the first token, whose refresh
attempt had just failed. -/
theorem getTokenV2_returns_failed_credential :
    getTokenV2 [{ refresh_token := "a", expired := true, refreshOk := false },
                { refresh_token := "b", expired := true, refreshOk := false }] 0 =
      some { refresh_token := "a", expired := true, refreshOk := false } ∧
    ({ refresh_token := "a", expired := true, refreshOk := false } : PoolToken).expired = true ∧
    ({ refresh_token := "a", expired := true, refreshOk := false } : PoolToken).refreshOk = false := by
  exact ⟨rfl, rfl, rfl⟩

/-- Claim C4 (amended): the cooldown-aware `getToken` returns null when
every eligible credential fails to refresh and never returns a credential
whose refresh attempt failed; the simplified `getToken` (lines 573–613)
instead falls back to the first enabled token after the whole rotation
fails. -/
theorem getToken_exhaustion_behavior :
    (∀ (all : List PoolToken) (cooled : List String) (cur : Nat),
      (∀ t ∈ all, t.expired = true ∧ t.refreshOk = false) →
      getTokenV1 all cooled cur = none) ∧
    (∀ (all : List PoolToken) (cooled : List String) (cur : Nat) (t : PoolToken),
      getTokenV1 all cooled cur = some t →
      t.expired = false ∨ t.refreshOk = true) ∧
    (∀ (all : List PoolToken) (cur : Nat),
      (∀ t ∈ all, t.expired = true ∧ t.refreshOk = false) →
      getTokenV2 all cur = (all.filter (fun t => t.enabled)).head?) := by
  refine ⟨?_, ?_, ?_⟩
  · intro all cooled cur hall
    unfold getTokenV1
    dsimp only
    split
    · rfl
    · exact getTokenV1Go_none_of_all_fail all hall _ _ _ _
  · intro all cooled cur t h
    unfold getTokenV1 at h
    dsimp only at h
    split at h
    · simp at h
    · exact getTokenV1Go_some_not_failed all _ _ _ _ t h
  · intro all cur hall
    unfold getTokenV2
    dsimp only
    split
    · next hlen =>
      rw [List.length_eq_zero.mp hlen]
      rfl
    · have hsub : ∀ t ∈ all.filter (fun t => t.enabled),
          t.expired = true ∧ t.refreshOk = false :=
        fun t ht => hall t (List.mem_filter.mp ht).1
      rw [getTokenV2Loop_none_of_all_fail _ hsub]

/-- Witness for C4: a one-token all-failing pool makes the cooldown-aware
`getToken` return null and the simplified one return that very token; a
fresh token is returned by the cooldown-aware variant and is indeed not a
failed credential. -/
theorem getToken_exhaustion_behavior_witness :
    getTokenV1 [{ refresh_token := "a", expired := true, refreshOk := false }] [] 0 = none ∧
    (({ refresh_token := "b" } : PoolToken).expired = false ∨
     ({ refresh_token := "b" } : PoolToken).refreshOk = true) ∧
    getTokenV2 [{ refresh_token := "a", expired := true, refreshOk := false }] 0 =
      ([{ refresh_token := "a", expired := true, refreshOk := false }].filter
        (fun t => t.enabled)).head? := by
  refine ⟨?_, ?_, ?_⟩
  · exact getToken_exhaustion_behavior.1
      [{ refresh_token := "a", expired := true, refreshOk := false }] [] 0 (by decide)
  · exact getToken_exhaustion_behavior.2.1 [{ refresh_token := "b" }] [] 0
      { refresh_token := "b" } (by rfl)
  · exact getToken_exhaustion_behavior.2.2
      [{ refresh_token := "a", expired := true, refreshOk := false }] 0 (by decide)

/-! ### Tool-call buffering (C6) -/

/-- Part processing emits only thinking and text events, never a
`tool_calls` event: function-call parts are buffered, not emitted. -/
theorem processPart_no_toolCalls (st : TState) (p : Part) (tc : List ToolCall) :
    Event.tool_calls tc ∉ (processPart st p).2 := by
  unfold processPart
  split
  · split <;> simp
  · split
    · dsimp only
      split <;> split <;> simp
    · split <;> simp

/-- Processing a whole parts list emits no `tool_calls` event. -/
theorem processParts_no_toolCalls (ps : List Part) :
    ∀ (st : TState) (tc : List ToolCall),
      Event.tool_calls tc ∉ (processParts st ps).2 := by
  induction ps with
  | nil => intro st tc; simp [processParts]
  | cons p rest ih =>
    intro st tc
    simp only [processParts, List.mem_append]
    push_neg
    exact ⟨processPart_no_toolCalls st p tc, ih _ tc⟩

/-- A line without a truthy `finishReason` emits no `tool_calls` event. -/
theorem processLine_no_finish_no_toolCalls (st : TState) (d : GenData)
    (hfr : strTruthy d.finishReason = false) (tc : List ToolCall) :
    Event.tool_calls tc ∉ (processLine st (some d)).2 := by
  unfold processLine
  dsimp only
  rw [hfr]
  simpa using processParts_no_toolCalls d.parts st tc

/-- Claim C6: the transcoder never emits a `tool_calls` event before the
upstream finish signal — a stream none of whose lines carries a truthy
`finishReason` emits no `tool_calls` event at all; a function-call part
only appends the invocation to the end of the buffer and emits nothing;
and when a line carries a truthy `finishReason` while the buffer (after
that line's parts) is non-empty, the line's events end with a closing
thinking marker (if a thinking block is open) followed by one `tool_calls`
event carrying the buffered invocations in buffering order, and the buffer
is cleared. -/
theorem toolCalls_only_at_finish :
    (∀ lns : List Line,
      (∀ d : GenData, some d ∈ lns → strTruthy d.finishReason = false) →
      ∀ tc : List ToolCall, Event.tool_calls tc ∉ processStream lns) ∧
    (∀ (st : TState) (p : Part) (fc : ToolCall),
      p.thought = false → p.text = none → p.functionCall = some fc →
      processPart st p = ({ st with toolCalls := st.toolCalls ++ [fc] }, [])) ∧
    (∀ (st : TState) (d : GenData),
      strTruthy d.finishReason = true →
      (processParts st d.parts).1.toolCalls ≠ [] →
      processLine st (some d) =
        (⟨false, []⟩,
         (processParts st d.parts).2 ++
           (if (processParts st d.parts).1.thinkingStarted then
              [Event.thinking "\n</think>\n"] else []) ++
           [Event.tool_calls (processParts st d.parts).1.toolCalls])) := by
  refine ⟨?_, ?_, ?_⟩
  · have key : ∀ (lns : List Line) (st : TState),
        (∀ d : GenData, some d ∈ lns → strTruthy d.finishReason = false) →
        ∀ tc : List ToolCall, Event.tool_calls tc ∉ (processStreamFrom st lns).2 := by
      intro lns
      induction lns with
      | nil => intro st _ tc; simp [processStreamFrom]
      | cons ln rest ih =>
        intro st hfr tc
        simp only [processStreamFrom, List.mem_append]
        push_neg
        constructor
        · cases ln with
          | none => simp [processLine]
          | some d =>
            exact processLine_no_finish_no_toolCalls st d
              (hfr d (List.mem_cons_self _ _)) tc
        · exact ih _ (fun d hd => hfr d (List.mem_cons_of_mem _ hd)) tc
    exact fun lns h tc => key lns TState.init h tc
  · intro st p fc hth htx hfc
    unfold processPart
    rw [hth, htx, hfc]
    simp
  · intro st d hfr hbuf
    unfold processLine
    dsimp only
    rw [hfr]
    have hlen : decide (0 < (processParts st d.parts).1.toolCalls.length) = true := by
      simpa [List.length_pos] using hbuf
    simp [hlen]

/-- Witness for C6: a thinking part followed by a finish signal with a
buffered call flushes the thinking block and then the buffered call. -/
theorem toolCalls_only_at_finish_witness :
    processLine ⟨true, [⟨"t1", "search", "{}"⟩]⟩ (some { finishReason := some "STOP" }) =
      (⟨false, []⟩,
       [Event.thinking "\n</think>\n", Event.tool_calls [⟨"t1", "search", "{}"⟩]]) := by
  have h := toolCalls_only_at_finish.2.2 ⟨true, [⟨"t1", "search", "{}"⟩]⟩
    { finishReason := some "STOP" } (by decide) (by decide)
  rw [h]
  rfl

/-! ### Frame property of `saveToFile` (C9) -/

/-- `updateRows` never changes the number of stored rows. -/
theorem updateRows_length (mem : List AccountRow) :
    ∀ acc : List AccountRow, (updateRows acc mem).length = acc.length := by
  induction mem with
  | nil => intro acc; rfl
  | cons m ms ih =>
    intro acc
    show (updateRows _ ms).length = _
    cases h : acc.findIdx? (fun t => t.refresh_token == m.refresh_token) with
    | none => simpa [h] using ih acc
    | some j =>
      have := ih (acc.set j m)
      simpa [h, List.length_set] using this

/-- A stored row whose identity key matches no in-memory record survives
`updateRows` unchanged at its position. -/
theorem updateRows_getElem?_no_match (mem : List AccountRow) :
    ∀ (acc : List AccountRow) (i : Nat) (row : AccountRow),
      acc[i]? = some row →
      (∀ t ∈ mem, t.refresh_token ≠ row.refresh_token) →
      (updateRows acc mem)[i]? = some row := by
  induction mem with
  | nil =>
    intro acc i row h _
    simpa [updateRows] using h
  | cons m ms ih =>
    intro acc i row h hnm
    show (updateRows _ ms)[i]? = some row
    cases hf : acc.findIdx? (fun t => t.refresh_token == m.refresh_token) with
    | none =>
      exact ih acc i row h (fun t ht => hnm t (List.mem_cons_of_mem m ht))
    | some j =>
      have hspec := List.findIdx?_eq_some_iff_getElem.mp hf
      obtain ⟨hjlt, hpj, -⟩ := hspec
      have hji : j ≠ i := by
        intro hrfl
        subst hrfl
        have hrow : acc[j] = row := by
          have := List.getElem?_eq_getElem hjlt
          rw [this] at h
          exact Option.some.inj h
        rw [hrow] at hpj
        exact hnm m (List.mem_cons_self m ms) (beq_iff_eq.mp hpj).symm
      have hset : (acc.set j m)[i]? = acc[i]? := List.getElem?_set_ne hji
      exact ih (acc.set j m) i row (hset.trans h)
        (fun t ht => hnm t (List.mem_cons_of_mem m ht))

/-- Claim C9: `saveToFile` writes nothing when the credentials came from
environment variables; otherwise it writes back the full row set (same
length), and every stored row whose identity key (`refresh_token`) matches
no in-memory record is written back unchanged at its position — only
matching rows can be replaced. -/
theorem saveToFile_frame :
    (∀ (cached mem : List AccountRow), saveToFile true cached mem = none) ∧
    (∀ (cached mem : List AccountRow),
      saveToFile false cached mem = some (updateRows cached mem) ∧
      (updateRows cached mem).length = cached.length) ∧
    (∀ (cached mem : List AccountRow) (i : Nat) (row : AccountRow),
      cached[i]? = some row →
      (∀ t ∈ mem, t.refresh_token ≠ row.refresh_token) →
      (updateRows cached mem)[i]? = some row) := by
  refine ⟨fun _ _ => rfl, fun cached mem => ⟨rfl, updateRows_length mem cached⟩, ?_⟩
  intro cached mem i row h hnm
  exact updateRows_getElem?_no_match mem cached i row h hnm

/-- Witness for C9: with stored rows `r1, r2` and the in-memory record
updating `r1`, the untouched row `r2` is written back unchanged. -/
theorem saveToFile_frame_witness :
    (updateRows [{ refresh_token := "r1", rest := "A" }, { refresh_token := "r2", rest := "B" }]
        [{ refresh_token := "r1", rest := "A2" }])[1]? =
      some { refresh_token := "r2", rest := "B" } :=
  saveToFile_frame.2.2
    [{ refresh_token := "r1", rest := "A" }, { refresh_token := "r2", rest := "B" }]
    [{ refresh_token := "r1", rest := "A2" }] 1 { refresh_token := "r2", rest := "B" }
    (by decide) (by decide)

end Gateway
